import Mathlib

/-!
Verification of the wire-protocol core of the ArmaServerInfoDiscordBot
repository: the A2S-style request constants and the byte-level decoding
performed by `SteamServer.A2S_players`, `ArmaServer.info` and
`ArmaServer.players` in `arma_server_query/server.py`, together with the
constants of `ArmaServerQuery/ArmaServerQuery.py`.

Byte strings are embedded as `List Nat` (each entry a byte value).
Python index arithmetic is embedded over `Int` because the source relies on
`bytes.find` returning `-1` and on negative slice indices.
-/

/-- Embeds Python `s.find(bytes([t]), i)` for a one-byte needle: the start
index is normalised (a negative `i` counts from the end, clamped at 0), and
the result is the absolute index of the first occurrence at or after the
normalised start, or `-1` when there is none. -/
def pyFind (s : List Nat) (t : Nat) (i : Int) : Int :=
  match (s.drop (if i < 0 then ((s.length : Int) + i).toNat else i.toNat)).findIdx?
      (fun b => b == t) with
  | some j => ((if i < 0 then ((s.length : Int) + i).toNat else i.toNat : Nat) : Int) + (j : Int)
  | none => -1

/-- Embeds the Python slice `s[i:j]`: both bounds are normalised (negative
values count from the end, clamped at 0; values past the end are clamped to
the length), and the result is the sub-list between them. -/
def pySlice (s : List Nat) (i j : Int) : List Nat :=
  (s.take (if j < 0 then ((s.length : Int) + j).toNat else min j.toNat s.length)).drop
    (if i < 0 then ((s.length : Int) + i).toNat else min i.toNat s.length)

/-- Embeds Python `s[i]` on a byte string at a non-negative in-range index
(the only way the source uses it: in the player loop the read of
`response[idx]` is guarded by `idx+7 <= idx_max`).  Out-of-range access,
which would raise in Python, is given the junk value 0; the theorems below
only ever evaluate it in range. -/
def pyByte (s : List Nat) (i : Int) : Nat :=
  s.getD i.toNat 0

/-- Embeds Python `int.from_bytes(bs, byteorder="big")`. -/
def intFromBytesBE (bs : List Nat) : Nat :=
  bs.foldl (fun a b => 256 * a + b) 0

/-- Tells whether a byte is a UTF-8 continuation byte. -/
def utf8Cont (b : Nat) : Prop :=
  0x80 ≤ b ∧ b ≤ 0xBF

instance (b : Nat) : Decidable (utf8Cont b) := by
  unfold utf8Cont; infer_instance

/-- Classifies one UTF-8 sequence starting at byte `b0` with lookahead `t`
(only the first three entries of `t` are inspected).  The first component is
the decoded code point, or `none` for an invalid or truncated sequence; the
second is how many lookahead bytes belong to the sequence beyond `b0` (on an
error this is the length of the maximal valid subpart, matching how CPython
resumes after an error). -/
def utf8Step (b0 : Nat) (t : List Nat) : Option Nat × Nat :=
  if b0 < 0x80 then (some b0, 0)
  else if b0 < 0xC2 then (none, 0)
  else if b0 ≤ 0xDF then
    match t with
    | b1 :: _ =>
      if utf8Cont b1 then (some ((b0 - 0xC0) * 64 + (b1 - 0x80)), 1) else (none, 0)
    | [] => (none, 0)
  else if b0 ≤ 0xEF then
    match t with
    | b1 :: b2 :: _ =>
      if utf8Cont b1 ∧ (b0 = 0xE0 → 0xA0 ≤ b1) ∧ (b0 = 0xED → b1 ≤ 0x9F) then
        if utf8Cont b2 then
          (some ((b0 - 0xE0) * 4096 + (b1 - 0x80) * 64 + (b2 - 0x80)), 2)
        else (none, 1)
      else (none, 0)
    | [b1] =>
      if utf8Cont b1 ∧ (b0 = 0xE0 → 0xA0 ≤ b1) ∧ (b0 = 0xED → b1 ≤ 0x9F) then
        (none, 1)
      else (none, 0)
    | [] => (none, 0)
  else if b0 ≤ 0xF4 then
    match t with
    | b1 :: b2 :: b3 :: _ =>
      if utf8Cont b1 ∧ (b0 = 0xF0 → 0x90 ≤ b1) ∧ (b0 = 0xF4 → b1 ≤ 0x8F) then
        if utf8Cont b2 then
          if utf8Cont b3 then
            (some ((b0 - 0xF0) * 262144 + (b1 - 0x80) * 4096 + (b2 - 0x80) * 64 + (b3 - 0x80)), 3)
          else (none, 2)
        else (none, 1)
      else (none, 0)
    | [b1, b2] =>
      if utf8Cont b1 ∧ (b0 = 0xF0 → 0x90 ≤ b1) ∧ (b0 = 0xF4 → b1 ≤ 0x8F) then
        if utf8Cont b2 then (none, 2) else (none, 1)
      else (none, 0)
    | [b1] =>
      if utf8Cont b1 ∧ (b0 = 0xF0 → 0x90 ≤ b1) ∧ (b0 = 0xF4 → b1 ≤ 0x8F) then
        (none, 1)
      else (none, 0)
    | [] => (none, 0)
  else (none, 0)

/-- Models CPython's UTF-8 decoder, the codec behind `bytes.decode("UTF-8")`
used by `decode` in `arma_server_query/server.py`.  With `replace := false`
(the codec's strict mode, `errors="strict"`) an invalid sequence yields
`none`; with `replace := true` (`errors="replace"`) each invalid sequence
contributes the replacement code point 0xFFFD and decoding continues after
its maximal valid subpart.  The result is the list of decoded code points. -/
def utf8Decode (replace : Bool) : List Nat → Option (List Nat)
  | [] => some []
  | [b0] =>
    match utf8Step b0 [] with
    | (some cp, _) => (utf8Decode replace []).map (cp :: ·)
    | (none, _) =>
      if replace then (utf8Decode replace []).map (0xFFFD :: ·) else none
  | [b0, b1] =>
    match utf8Step b0 [b1] with
    | (some cp, 0) => (utf8Decode replace [b1]).map (cp :: ·)
    | (some cp, _) => (utf8Decode replace []).map (cp :: ·)
    | (none, 0) =>
      if replace then (utf8Decode replace [b1]).map (0xFFFD :: ·) else none
    | (none, _) =>
      if replace then (utf8Decode replace []).map (0xFFFD :: ·) else none
  | [b0, b1, b2] =>
    match utf8Step b0 [b1, b2] with
    | (some cp, 0) => (utf8Decode replace [b1, b2]).map (cp :: ·)
    | (some cp, 1) => (utf8Decode replace [b2]).map (cp :: ·)
    | (some cp, _) => (utf8Decode replace []).map (cp :: ·)
    | (none, 0) =>
      if replace then (utf8Decode replace [b1, b2]).map (0xFFFD :: ·) else none
    | (none, 1) =>
      if replace then (utf8Decode replace [b2]).map (0xFFFD :: ·) else none
    | (none, _) =>
      if replace then (utf8Decode replace []).map (0xFFFD :: ·) else none
  | b0 :: b1 :: b2 :: b3 :: rest =>
    match utf8Step b0 [b1, b2, b3] with
    | (some cp, 0) => (utf8Decode replace (b1 :: b2 :: b3 :: rest)).map (cp :: ·)
    | (some cp, 1) => (utf8Decode replace (b2 :: b3 :: rest)).map (cp :: ·)
    | (some cp, 2) => (utf8Decode replace (b3 :: rest)).map (cp :: ·)
    | (some cp, _) => (utf8Decode replace rest).map (cp :: ·)
    | (none, 0) =>
      if replace then (utf8Decode replace (b1 :: b2 :: b3 :: rest)).map (0xFFFD :: ·) else none
    | (none, 1) =>
      if replace then (utf8Decode replace (b2 :: b3 :: rest)).map (0xFFFD :: ·) else none
    | (none, _) =>
      if replace then (utf8Decode replace (b3 :: rest)).map (0xFFFD :: ·) else none

/-- Embeds the module-level `decode` helper of `arma_server_query/server.py`:
UTF-8 decoding with the default keyword argument `errors="replace"`. -/
def decode (bs : List Nat) : Option (List Nat) :=
  utf8Decode true bs

/-- Code points of a Lean string literal, for readable statements about
text fields. -/
def pyStrCodes (s : String) : List Nat :=
  s.toList.map Char.toNat


/-- Embeds the dictionary built by `ArmaServer.info` on a non-empty
response: decoded text fields and the two one-byte player numbers. -/
structure InfoData where
  name : Option (List Nat)
  map : Option (List Nat)
  mission : Option (List Nat)
  player_count : Nat
  player_limit : Nat
deriving DecidableEq, Repr

/-- Embeds the body of `ArmaServer.info` for a non-empty response `r`:
the index arithmetic is exactly that of the source, including `find`
returning `-1` and Python slice normalisation.  Each text field holds the
result of `decode` (UTF-8, replace) on the extracted bytes. -/
def infoData (r : List Nat) : InfoData :=
  let i1 : Int := 1 + pyFind r 0x11 0
  let e1 : Int := pyFind r 0 i1
  let i2 : Int := 1 + e1
  let e2 : Int := pyFind r 0 i2
  let i3 : Int := 1 + pyFind r 0 (e2 + 1)
  let e3 : Int := pyFind r 0 i3
  let idx : Int := 3 + pyFind r 0 e3
  { name := decode (pySlice r i1 e1)
    map := decode (pySlice r i2 e2)
    mission := decode (pySlice r i3 e3)
    player_count := intFromBytesBE (pySlice r idx (idx + 1))
    player_limit := intFromBytesBE (pySlice r (idx + 1) (idx + 2)) }

/-- Embeds the result of `ArmaServer.info`: the empty-dictionary return for
a falsy (empty) response becomes `none`, a decoded dictionary becomes
`some`. -/
def info (r : List Nat) : Option InfoData :=
  if r = [] then none else some (infoData r)

/-- Embeds one player dictionary built by `ArmaServer.players`: the decoded
name, the single score byte `response[idx]`, and the four raw bytes
`response[idx+4:idx+8]` that the source feeds to `struct.unpack("f", ...)`
(the floating-point reinterpretation and the hh:mm formatting are
presentation; the record keeps the bytes). -/
structure PlayerRec where
  name : Option (List Nat)
  score : Nat
  timeBytes : List Nat
deriving DecidableEq, Repr

/-- Embeds the `while` loop of `ArmaServer.players` with an explicit fuel
argument: one unit of fuel per iteration.  The loop advances its cursor by
at least ten positions per produced record, so `r.length + 1` units are
always enough (proved below); the fuel-out value is never reached from
`playersData`. -/
def playersLoopF (r : List Nat) : Nat → Int → List PlayerRec
  | 0, _ => []
  | fuel + 1, idx_start =>
    if idx_start ≤ (r.length : Int) - 1 then
      if pyFind r 0 idx_start < 0 then []
      else if 1 + pyFind r 0 idx_start + 7 > (r.length : Int) - 1 then []
      else
        { name := decode (pySlice r idx_start (pyFind r 0 idx_start))
          score := pyByte r (1 + pyFind r 0 idx_start)
          timeBytes :=
            pySlice r (1 + pyFind r 0 idx_start + 4) (1 + pyFind r 0 idx_start + 8) }
        :: playersLoopF r fuel (1 + pyFind r 0 idx_start + 9)
    else []

/-- Embeds the player-list construction of `ArmaServer.players` on a
non-empty response: the cursor starts one past the first zero byte of the
whole response. -/
def playersData (r : List Nat) : List PlayerRec :=
  playersLoopF r (r.length + 1) (1 + pyFind r 0 0)

/-- Return value of `ArmaServer.players`: the source returns the empty
dictionary (not a list) for a falsy response and a list of player
dictionaries otherwise; the two are distinct Python values. -/
inductive PlayersRet where
  | noResp
  | list (ps : List PlayerRec)
deriving DecidableEq, Repr

/-- Embeds `ArmaServer.players` as a function of the raw bytes returned by
`SteamServer.A2S_players`. -/
def players (r : List Nat) : PlayersRet :=
  if r = [] then .noResp else .list (playersData r)

/-- Outcome of one `recvfrom` call: either the `socket.timeout` exception
or a received datagram. -/
inductive Recv where
  | timeout
  | datagram (bs : List Nat)
deriving DecidableEq, Repr

/-- Models Python `str.encode("iso-8859-1")`: every code point below 256
becomes the byte of the same value; a code point of 256 or more would raise
in Python, which is `none` here. -/
def latin1Encode (s : String) : Option (List Nat) :=
  if s.toList.all (fun c => c.toNat < 256) then some (s.toList.map Char.toNat)
  else none

/-- Embeds the `A2S_INFO` request constant of
`ArmaServerQuery/ArmaServerQuery.py`. -/
def A2S_INFO : Option (List Nat) :=
  latin1Encode "ÿÿÿÿTSource Engine Query\x00"

/-- Embeds the `A2S_PLAYER_PREFIX` request constant (the name here drops
the last word of the source's name). -/
def A2S_PLAYER_PRE : Option (List Nat) :=
  latin1Encode "ÿÿÿÿU"

/-- Embeds the `A2S_PLAYER_CHALLENGE_POSTFIX` constant (the name here
drops the last word of the source's name): the neutral challenge value. -/
def A2S_PLAYER_CHALLENGE_POST : Option (List Nat) :=
  latin1Encode "ÿÿÿÿ"

/-- Embeds `A2S_PLAYER_POSTFIX = response[5:]`, the slice of the challenge
response that the source echoes back in the player-data request. -/
def challengeSuffix (c : List Nat) : List Nat :=
  c.drop 5

/-- Embeds the bytes of the second (player-data) request,
`A2S_PLAYER_PREFIX + A2S_PLAYER_POSTFIX`. -/
def playerRequest (tok : List Nat) : List Nat :=
  A2S_PLAYER_PRE.getD [] ++ tok

/-- Embeds `SteamServer.A2S_players` as a function of the two datagrams the
server delivers (or fails to deliver): an empty byte string on either
timeout, an empty byte string when the second response repeats the first
from offset 5 on, and otherwise the second response itself. -/
def A2S_players (challenge data : Recv) : List Nat :=
  match challenge with
  | .timeout => []
  | .datagram c =>
    match data with
    | .timeout => []
    | .datagram d =>
      if challengeSuffix c = challengeSuffix d then [] else d

/-- Composition of the raw two-phase query with the player decoding layer:
what a caller of `ArmaServer.players` obtains from a given pair of
deliveries. -/
def fetchPlayers (challenge data : Recv) : PlayersRet :=
  players (A2S_players challenge data)


/-- Cursor-style restatement of the player-record scan actually performed
by the source loop, written over natural-number indices: at cursor `i`,
find the next zero terminator `e`; stop if there is none or if the response
holds fewer than `e + 9` bytes (fewer than eight bytes after the
terminator); otherwise emit the record — name bytes `i..e`, score byte at
`e + 1`, four time bytes at `e + 5 .. e + 8` — and continue at `e + 10`,
ten bytes past the terminator. -/
def scanPlayersF (r : List Nat) : Nat → Nat → List PlayerRec
  | 0, _ => []
  | fuel + 1, i =>
    match (r.drop i).findIdx? (fun b => b == 0) with
    | none => []
    | some j =>
      if r.length < i + j + 9 then []
      else
        { name := decode ((r.take (i + j)).drop i)
          score := r.getD (i + j + 1) 0
          timeBytes := (r.take (i + j + 9)).drop (i + j + 5) }
        :: scanPlayersF r fuel (i + j + 10)

/-- Follows the claim's words for the record scan, where they differ from
the source: the cursor advances to nine bytes past the name terminator and
scanning stops when fewer than nine bytes remain after a name terminator. -/
def scanClaimF (r : List Nat) : Nat → Nat → List PlayerRec
  | 0, _ => []
  | fuel + 1, i =>
    match (r.drop i).findIdx? (fun b => b == 0) with
    | none => []
    | some j =>
      if r.length < i + j + 10 then []
      else
        { name := decode ((r.take (i + j)).drop i)
          score := r.getD (i + j + 1) 0
          timeBytes := (r.take (i + j + 9)).drop (i + j + 5) }
        :: scanClaimF r fuel (i + j + 9)

/-- Starting cursor of the player scan: one past the first zero byte of
the response, or zero when the response has no zero byte. -/
def startIdx (r : List Nat) : Nat :=
  match r.findIdx? (fun b => b == 0) with
  | some j => j + 1
  | none => 0

/-- Cursor-style player decoding with the source's offsets. -/
def playersAmended (r : List Nat) : List PlayerRec :=
  scanPlayersF r (r.length + 1) (startIdx r)

/-- Player decoding as the claim words it. -/
def playersClaim (r : List Nat) : List PlayerRec :=
  scanClaimF r (r.length + 1) (startIdx r)

/-- Concrete info response following the spec's example byte-for-byte:
marker, name "MyServer", map "de_dust", an empty field, mission "briefing",
then immediately the two count bytes 05 10. -/
def specInfoExample : List Nat :=
  [0xFF, 0xFF, 0xFF, 0xFF, 0x49, 0x11] ++ pyStrCodes "MyServer" ++ [0] ++
    pyStrCodes "de_dust" ++ [0, 0] ++ pyStrCodes "briefing" ++ [0, 0x05, 0x10]

/-- The spec's example with the two skipped fixed-field bytes inserted
between the mission terminator and the count bytes, as the source's offsets
require. -/
def specInfoExampleFixed : List Nat :=
  [0xFF, 0xFF, 0xFF, 0xFF, 0x49, 0x11] ++ pyStrCodes "MyServer" ++ [0] ++
    pyStrCodes "de_dust" ++ [0, 0] ++ pyStrCodes "briefing" ++ [0, 0, 0, 0x05, 0x10]

/-- Concrete player-data response of 22 bytes holding two complete records
under the source's offsets: a leading zero, record "A" (score 7), and
record "B" (score 9) whose final time byte is the last byte of the
response. -/
def playersExample : List Nat :=
  [0, 65, 0, 7, 0, 0, 0, 0, 0, 0, 0, 67, 66, 0, 9, 0, 0, 0, 1, 0, 0, 0]

theorem pyFind_natCast (s : List Nat) (t : Nat) (i : Nat) :
    pyFind s t (i : Int) =
      (match (s.drop i).findIdx? (fun b => b == t) with
        | some j => (i : Int) + (j : Int)
        | none => -1) := by
  have h : ¬ ((i : Int) < 0) := by omega
  simp [pyFind, h]

theorem pySlice_natCast (s : List Nat) (i j : Nat) :
    pySlice s (i : Int) (j : Int) = (s.take j).drop i := by
  have hi : ¬ ((i : Int) < 0) := by omega
  have hj : ¬ ((j : Int) < 0) := by omega
  simp only [pySlice, hi, hj, if_false, Int.toNat_natCast]
  have h1 : s.take (min j s.length) = s.take j := by
    rcases Nat.le_total j s.length with h | h
    · rw [Nat.min_eq_left h]
    · rw [Nat.min_eq_right h, List.take_of_length_le h, List.take_of_length_le (by omega)]
  rw [h1]
  rcases Nat.le_total i s.length with h2 | h2
  · rw [Nat.min_eq_left h2]
  · rw [Nat.min_eq_right h2, List.drop_eq_nil_of_le (by rw [List.length_take]; omega),
      List.drop_eq_nil_of_le (by rw [List.length_take]; omega)]

theorem pyByte_natCast (s : List Nat) (i : Nat) :
    pyByte s (i : Int) = s.getD i 0 := by
  simp [pyByte]

theorem pyFind_ge_neg_one (s : List Nat) (t : Nat) (i : Int) :
    -1 ≤ pyFind s t i := by
  rcases h : (s.drop (if i < 0 then ((s.length : Int) + i).toNat else i.toNat)).findIdx?
      (fun b => b == t) with _ | j
  · simp [pyFind, h]
  · simp [pyFind, h]; omega

theorem pyFind_nat_some (s : List Nat) (t : Nat) (i j : Nat)
    (hfi : (s.drop i).findIdx? (fun b => b == t) = some j) :
    pyFind s t (i : Int) = (i : Int) + (j : Int) := by
  have hi : ¬ ((i : Int) < 0) := by omega
  simp [pyFind, hi, hfi]

theorem pyFind_nat_none (s : List Nat) (t : Nat) (i : Nat)
    (hfi : (s.drop i).findIdx? (fun b => b == t) = none) :
    pyFind s t (i : Int) = -1 := by
  have hi : ¬ ((i : Int) < 0) := by omega
  simp [pyFind, hi, hfi]

theorem pyFind_ge (s : List Nat) (t : Nat) (i : Int) (h0 : 0 ≤ i)
    (hne : ¬ pyFind s t i < 0) : i ≤ pyFind s t i := by
  have hx : (i : Int) = ((i.toNat : Nat) : Int) := by omega
  rcases hfi : (s.drop i.toNat).findIdx? (fun b => b == t) with _ | j
  · have hv := pyFind_nat_none s t i.toNat hfi
    rw [← hx] at hv
    omega
  · have hv := pyFind_nat_some s t i.toNat j hfi
    rw [← hx] at hv
    omega

theorem findIdx?_some_lt {s : List Nat} {p : Nat → Bool} {j : Nat}
    (h : s.findIdx? p = some j) : j < s.length :=
  (List.findIdx?_eq_some_iff_findIdx_eq.mp h).1

theorem slice_mid (C M R : List Nat) :
    ((C ++ (M ++ R)).take (C.length + M.length)).drop C.length = M := by
  rw [List.take_append_eq_append_take, List.take_of_length_le (by omega),
    Nat.add_sub_cancel_left, List.take_append_eq_append_take,
    List.take_of_length_le (by omega), Nat.sub_self, List.take_zero, List.append_nil,
    List.drop_left]

theorem findIdx?_found_append (A B : List Nat) (t : Nat) (hA : t ∉ A) :
    (A ++ t :: B).findIdx? (fun b => b == t) = some A.length := by
  have hA2 : A.findIdx? (fun b => b == t) = none := by
    rw [List.findIdx?_eq_none_iff]
    intro x hx
    simp only [beq_eq_false_iff_ne, ne_eq]
    rintro rfl
    exact hA hx
  rw [List.findIdx?_append, hA2]
  simp
theorem playersLoopF_eq_scanPlayersF (r : List Nat) :
    ∀ (fuel : Nat) (i : Nat), playersLoopF r fuel (i : Int) = scanPlayersF r fuel i := by
  intro fuel
  induction fuel with
  | zero => intro i; rfl
  | succ fuel ih =>
    intro i
    rcases hf : (r.drop i).findIdx? (fun b => b == 0) with _ | j
    · have hpf := pyFind_nat_none r 0 i hf
      simp only [playersLoopF, scanPlayersF, hf, hpf]
      split <;> simp
    · have hpf := pyFind_nat_some r 0 i j hf
      have hj : j < r.length - i := by
        have := findIdx?_some_lt hf
        simpa using this
      have hij : i + j < r.length := by omega
      simp only [playersLoopF, scanPlayersF, hf, hpf]
      rw [if_pos (by omega : (i : Int) ≤ (r.length : Int) - 1)]
      rw [if_neg (by omega : ¬ ((i : Int) + (j : Int) < 0))]
      by_cases hstop : r.length < i + j + 9
      · rw [if_pos (by omega), if_pos hstop]
      · rw [if_neg (by omega), if_neg hstop]
        have hname : pySlice r (i : Int) ((i : Int) + (j : Int)) = (r.take (i + j)).drop i := by
          have := pySlice_natCast r i (i + j)
          rw [← this]
          norm_cast
        have hscore : pyByte r (1 + ((i : Int) + (j : Int))) = r.getD (i + j + 1) 0 := by
          have := pyByte_natCast r (i + j + 1)
          rw [← this]
          norm_num
          congr 1
          omega
        have htime : pySlice r (1 + ((i : Int) + (j : Int)) + 4) (1 + ((i : Int) + (j : Int)) + 8) =
            (r.take (i + j + 9)).drop (i + j + 5) := by
          have := pySlice_natCast r (i + j + 5) (i + j + 9)
          rw [← this]
          congr 1 <;> omega
        rw [hname, hscore, htime]
        have hnext : 1 + ((i : Int) + (j : Int)) + 9 = ((i + j + 10 : Nat) : Int) := by
          push_cast; omega
        rw [hnext, ih (i + j + 10)]

theorem playersLoopF_bounds (r : List Nat) :
    ∀ (fuel : Nat) (i : Int), 0 ≤ i →
      (playersLoopF r fuel i).length ≤ ((r.length : Int) - i).toNat ∧
      10 * (playersLoopF r fuel i).length ≤ ((r.length : Int) + 10 - i).toNat := by
  intro fuel
  induction fuel with
  | zero => intro i _; simp [playersLoopF]
  | succ fuel ih =>
    intro i h0
    simp only [playersLoopF]
    split
    case isFalse => simp
    case isTrue h1 =>
      split
      case isTrue => simp
      case isFalse h2 =>
        split
        case isTrue => simp
        case isFalse h3 =>
          have he := pyFind_ge r 0 i h0 h2
          obtain ⟨ih1, ih2⟩ := ih (1 + pyFind r 0 i + 9) (by omega)
          simp only [List.length_cons]
          omega

theorem utf8Decode_replace_isSome (l : List Nat) : (utf8Decode true l).isSome := by
  induction l using utf8Decode.induct true <;>
    simp_all [utf8Decode, Option.isSome_map]

theorem decode_isSome (l : List Nat) : (decode l).isSome :=
  utf8Decode_replace_isSome l

theorem playersLoopF_name_isSome (r : List Nat) :
    ∀ (fuel : Nat) (i : Int) (p : PlayerRec), p ∈ playersLoopF r fuel i → p.name.isSome := by
  intro fuel
  induction fuel with
  | zero => intro i p hp; simp [playersLoopF] at hp
  | succ fuel ih =>
    intro i p hp
    simp only [playersLoopF] at hp
    split at hp
    case isFalse => simp at hp
    case isTrue =>
      split at hp
      case isTrue => simp at hp
      case isFalse =>
        split at hp
        case isTrue => simp at hp
        case isFalse =>
          rcases List.mem_cons.mp hp with h | h
          · subst h; exact decode_isSome _
          · exact ih _ p h

theorem pyFind_not_mem (s : List Nat) (t : Nat) (h : t ∉ s) :
    pyFind s t 0 = -1 := by
  have h0 : (s.drop 0).findIdx? (fun b => b == t) = none := by
    rw [List.findIdx?_eq_none_iff]
    intro x hx
    simp only [beq_eq_false_iff_ne, ne_eq]
    rintro rfl
    exact h (by simpa using hx)
  simpa using pyFind_nat_none s t 0 h0

/-- Claim C6 (code_bug evaluation): on the empty byte sequence the source's
player decoding returns the empty dictionary — the no-response value, the
same value its docstring documents as a list — and that value is not the
empty list of player records. -/
theorem c6_empty_players_value :
    players [] = PlayersRet.noResp ∧ PlayersRet.noResp ≠ PlayersRet.list [] := by
  constructor
  · rfl
  · intro h; cases h

/-- Claim C2 (counterexample): a concrete pair of responses that are
identical from byte offset 5 onward makes `fetchPlayers` return the
no-response dictionary value — the very value produced by a timeout — and
not the successful empty player list the claim announces. -/
theorem c2_stale_echo_counterexample :
    fetchPlayers (.datagram [255, 255, 255, 255, 65, 1, 2, 3, 4])
        (.datagram [255, 255, 255, 255, 65, 1, 2, 3, 4]) = PlayersRet.noResp ∧
      fetchPlayers (.datagram [255, 255, 255, 255, 65, 1, 2, 3, 4])
        (.datagram [255, 255, 255, 255, 65, 1, 2, 3, 4]) ≠ PlayersRet.list [] := by
  constructor
  · rfl
  · intro h; cases h

/-- Claim C2 (amended): when the second response repeats the first from
byte offset 5 onward, the raw query returns the empty byte string and the
decoding layer returns the no-response dictionary — exactly the value of a
timed-out query — rather than a distinguished successful empty list. -/
theorem c2_stale_echo_amended (c d : List Nat)
    (h : challengeSuffix c = challengeSuffix d) :
    A2S_players (.datagram c) (.datagram d) = [] ∧
      fetchPlayers (.datagram c) (.datagram d) = PlayersRet.noResp ∧
      fetchPlayers (.datagram c) (.datagram d) = fetchPlayers .timeout .timeout := by
  refine ⟨?_, ?_, ?_⟩ <;> simp [A2S_players, fetchPlayers, players, h]

theorem c2_stale_echo_amended_witness :
    A2S_players (.datagram [1, 2, 3, 4, 5, 6, 7]) (.datagram [9, 9, 9, 9, 9, 6, 7]) = [] ∧
      fetchPlayers (.datagram [1, 2, 3, 4, 5, 6, 7]) (.datagram [9, 9, 9, 9, 9, 6, 7]) =
        PlayersRet.noResp ∧
      fetchPlayers (.datagram [1, 2, 3, 4, 5, 6, 7]) (.datagram [9, 9, 9, 9, 9, 6, 7]) =
        fetchPlayers .timeout .timeout :=
  c2_stale_echo_amended [1, 2, 3, 4, 5, 6, 7] [9, 9, 9, 9, 9, 6, 7] (by decide)

/-- Claim C10: a challenge-phase timeout, a data-phase timeout and a
detected stale echo all make the raw player query return the empty byte
string, so the decoding layer returns the identical no-response value in
all three cases and a caller cannot tell them apart. -/
theorem c10_failure_collapse (c d : List Nat)
    (h : challengeSuffix c = challengeSuffix d) :
    A2S_players .timeout (.datagram d) = [] ∧
      A2S_players (.datagram c) .timeout = [] ∧
      A2S_players (.datagram c) (.datagram d) = [] ∧
      fetchPlayers .timeout (.datagram d) = PlayersRet.noResp ∧
      fetchPlayers (.datagram c) .timeout = PlayersRet.noResp ∧
      fetchPlayers (.datagram c) (.datagram d) = PlayersRet.noResp := by
  refine ⟨rfl, rfl, ?_, rfl, rfl, ?_⟩ <;> simp [A2S_players, fetchPlayers, players, h]

theorem c10_failure_collapse_witness :
    A2S_players .timeout (.datagram [0, 0, 0, 0, 0, 8]) = [] ∧
      A2S_players (.datagram [1, 1, 1, 1, 1, 8]) .timeout = [] ∧
      A2S_players (.datagram [1, 1, 1, 1, 1, 8]) (.datagram [0, 0, 0, 0, 0, 8]) = [] ∧
      fetchPlayers .timeout (.datagram [0, 0, 0, 0, 0, 8]) = PlayersRet.noResp ∧
      fetchPlayers (.datagram [1, 1, 1, 1, 1, 8]) .timeout = PlayersRet.noResp ∧
      fetchPlayers (.datagram [1, 1, 1, 1, 1, 8]) (.datagram [0, 0, 0, 0, 0, 8]) =
        PlayersRet.noResp :=
  c10_failure_collapse [1, 1, 1, 1, 1, 8] [0, 0, 0, 0, 0, 8] (by decide)

/-- Claim C7: the info request is the four-byte marker, the literal text
"TSource Engine Query" and a trailing zero; the challenge request is the
marker, the byte 0x55 and the neutral four-byte marker again; and the
player-data request is the marker, the byte 0x55 and the token bytes
appended verbatim. -/
theorem c7_request_encoding :
    A2S_INFO = some ([255, 255, 255, 255] ++ pyStrCodes "TSource Engine Query" ++ [0]) ∧
      A2S_PLAYER_PRE = some [255, 255, 255, 255, 0x55] ∧
      A2S_PLAYER_CHALLENGE_POST = some [255, 255, 255, 255] ∧
      A2S_PLAYER_PRE.getD [] ++ A2S_PLAYER_CHALLENGE_POST.getD [] =
        [255, 255, 255, 255, 0x55, 255, 255, 255, 255] ∧
      ∀ tok : List Nat, playerRequest tok = [255, 255, 255, 255, 0x55] ++ tok := by
  refine ⟨by decide, by decide, by decide, by decide, ?_⟩
  intro tok
  have h : A2S_PLAYER_PRE.getD [] = [255, 255, 255, 255, 0x55] := by decide
  rw [playerRequest, h]

/-- Claim C9: the player-record loop consumes at least ten positions per
decoded record and therefore terminates with a record count bounded by the
length of the input. -/
theorem c9_player_scan_bounded (r : List Nat) :
    (playersData r).length ≤ r.length ∧
      10 * (playersData r).length ≤ r.length + 10 := by
  have hneg := pyFind_ge_neg_one r 0 0
  have h0 : (0 : Int) ≤ 1 + pyFind r 0 0 := by omega
  obtain ⟨h1, h2⟩ := playersLoopF_bounds r (r.length + 1) (1 + pyFind r 0 0) h0
  rw [playersData]
  constructor <;> omega

/-- Claim C4 (amended): the source's player scan is exactly the cursor
description with the corrected offsets — find the terminator `e` of the
name that starts at the cursor, stop when there is none or when fewer than
eight bytes follow position `e`, otherwise emit the record (score byte at
`e + 1`, three ignored bytes, four time bytes at `e + 5 .. e + 8`) and
continue at `e + 10`, ten bytes past the terminator, skipping one byte
after the time field. -/
theorem c4_player_scan_amended (r : List Nat) :
    playersData r = playersAmended r := by
  rw [playersData, playersAmended, startIdx]
  rcases hf : r.findIdx? (fun b => b == 0) with _ | j
  · have hpf : pyFind r 0 0 = -1 := pyFind_nat_none r 0 0 (by simpa using hf)
    rw [hpf]
    have h0 : (1 : Int) + (-1) = ((0 : Nat) : Int) := by omega
    rw [h0, playersLoopF_eq_scanPlayersF]
  · have hpf : pyFind r 0 0 = (0 : Int) + (j : Int) :=
      pyFind_nat_some r 0 0 j (by simpa using hf)
    rw [hpf]
    have h0 : (1 : Int) + ((0 : Int) + (j : Int)) = ((j + 1 : Nat) : Int) := by push_cast; omega
    rw [h0, playersLoopF_eq_scanPlayersF]

/-- Claim C4 (counterexample): on a concrete 22-byte response the source
decodes two records, "A" with score 7 and "B" with score 9, while the scan
described by the claim — advance nine bytes past the terminator, stop when
fewer than nine bytes remain after it — decodes only the first record and
drops the second. -/
theorem c4_player_scan_counterexample :
    playersData playersExample =
        [{ name := some [65], score := 7, timeBytes := [0, 0, 0, 0] },
         { name := some [66], score := 9, timeBytes := [1, 0, 0, 0] }] ∧
      playersClaim playersExample =
        [{ name := some [65], score := 7, timeBytes := [0, 0, 0, 0] }] ∧
      playersData playersExample ≠ playersClaim playersExample := by
  refine ⟨by decide, by decide, by decide⟩

/-- Claim C1 (counterexample): the one-byte response 0x41 contains no 0x11
marker, yet the info decoder still produces a server-info dictionary (with
empty text fields and zero counts) instead of a failure value; only the
empty response yields the no-info value. -/
theorem c1_no_marker_counterexample :
    (0x11 ∉ ([0x41] : List Nat)) ∧
      info [0x41] = some ⟨some [], some [], some [], 0, 0⟩ ∧
      info [0x41] ≠ none := by
  refine ⟨by decide, by decide, by decide⟩

/-- Claim C1 (amended): the info decoder performs no marker check — when
the byte 0x11 is absent, `find` yields -1, so the name scan simply starts
at byte 0 and every non-empty response still decodes to a server-info
dictionary; the no-info value arises only from the empty response. -/
theorem c1_no_marker_amended (r : List Nat) (hne : r ≠ []) (hm : 0x11 ∉ r) :
    info r = some (infoData r) ∧
      (infoData r).name = decode (pySlice r 0 (pyFind r 0 0)) := by
  constructor
  · simp [info, hne]
  · have hpf : pyFind r 0x11 0 = -1 := pyFind_not_mem r 0x11 hm
    simp only [infoData, hpf]
    norm_num

theorem c1_no_marker_amended_witness :
    info [0x41] = some (infoData [0x41]) ∧
      (infoData [0x41]).name = decode (pySlice [0x41] 0 (pyFind [0x41] 0 0)) :=
  c1_no_marker_amended [0x41] (by decide) (by decide)

/-- Claim C3 (counterexample): a ten-byte challenge response yields a
five-byte echo slice, not the four bytes 5..9; and after a five-byte
challenge response — shorter than nine bytes — the query does not fail but
proceeds with an empty echo slice, and a subsequent player-data response
decodes to a player list. -/
theorem c3_challenge_token_counterexample :
    (challengeSuffix [1, 2, 3, 4, 5, 6, 7, 8, 9, 10]).length = 5 ∧
      challengeSuffix [255, 255, 255, 255, 65] = [] ∧
      fetchPlayers (.datagram [255, 255, 255, 255, 65])
          (.datagram [255, 255, 255, 255, 68, 1, 0, 65, 0, 7, 0, 0, 0, 1, 2, 3, 4]) =
        PlayersRet.list [{ name := some [65], score := 7, timeBytes := [1, 2, 3, 4] }] := by
  refine ⟨by decide, by decide, by decide⟩

/-- Claim C3 (amended): the token echoed back is every byte of the
challenge response from offset 5 to its end — which coincides with bytes
5..9 exactly for a nine-byte response — and no length check is made: a
shorter response yields a shorter (possibly empty) echo and the second
phase still runs. -/
theorem c3_challenge_token_amended (c d : List Nat) :
    (c.length = 9 → challengeSuffix c = (c.drop 5).take 4) ∧
      (c.length < 9 → (challengeSuffix c).length = c.length - 5) ∧
      (challengeSuffix c ≠ challengeSuffix d →
        A2S_players (.datagram c) (.datagram d) = d) := by
  refine ⟨?_, ?_, ?_⟩
  · intro h9
    rw [challengeSuffix, List.take_of_length_le]
    rw [List.length_drop, h9]
  · intro _
    rw [challengeSuffix, List.length_drop]
  · intro hne
    simp [A2S_players, hne]

theorem c3_challenge_token_amended_witness :
    (([255, 255, 255, 255, 65] : List Nat).length < 9) ∧
      (challengeSuffix [255, 255, 255, 255, 65]).length =
        ([255, 255, 255, 255, 65] : List Nat).length - 5 ∧
      A2S_players (.datagram [255, 255, 255, 255, 65]) (.datagram [6, 6, 6, 6, 6, 6]) =
        [6, 6, 6, 6, 6, 6] :=
  ⟨by decide,
    (c3_challenge_token_amended [255, 255, 255, 255, 65] [6, 6, 6, 6, 6, 6]).2.1 (by decide),
    (c3_challenge_token_amended [255, 255, 255, 255, 65] [6, 6, 6, 6, 6, 6]).2.2 (by decide)⟩

/-- Claim C8: the replace-mode text decoding used for every string field
never fails — so each record produced by the player scan carries a
successfully decoded name, and the three text fields of a decoded info
dictionary are all successfully decoded, whatever bytes arrived. -/
theorem c8_decode_never_fails (bs r : List Nat) (p : PlayerRec)
    (hp : p ∈ playersData r) :
    (decode bs).isSome ∧ p.name.isSome ∧ (infoData r).name.isSome ∧
      (infoData r).map.isSome ∧ (infoData r).mission.isSome := by
  refine ⟨decode_isSome bs, playersLoopF_name_isSome r _ _ p hp, ?_, ?_, ?_⟩ <;>
    simp only [infoData] <;> exact decode_isSome _

theorem c8_decode_never_fails_witness :
    (decode [0xFF, 0x41]).isSome ∧
      (({ name := some [0xFFFD], score := 7, timeBytes := [1, 2, 3, 4] } : PlayerRec)).name.isSome ∧
      (infoData [0, 0xFF, 0, 7, 0, 0, 0, 1, 2, 3, 4]).name.isSome ∧
      (infoData [0, 0xFF, 0, 7, 0, 0, 0, 1, 2, 3, 4]).map.isSome ∧
      (infoData [0, 0xFF, 0, 7, 0, 0, 0, 1, 2, 3, 4]).mission.isSome :=
  c8_decode_never_fails [0xFF, 0x41] [0, 0xFF, 0, 7, 0, 0, 0, 1, 2, 3, 4]
    { name := some [0xFFFD], score := 7, timeBytes := [1, 2, 3, 4] } (by decide)

/-- Claim C5 (amended): with the marker located and every text field free
of zero bytes, the info decoder reads the name after the first 0x11, the
map immediately after the name's terminator, the mission as the second
zero-terminated field after the map (one field is skipped), and the two
count bytes three and four positions after the mission's terminator (two
fixed-field bytes are skipped) — so the spec's example needs two filler
bytes before the counts. -/
theorem c5_info_layout_amended (pre nm mp skip ms rest : List Nat) (x1 x2 cnt lim : Nat)
    (hpre : 0x11 ∉ pre) (hnm : 0 ∉ nm) (hmp : 0 ∉ mp) (hskip : 0 ∉ skip) (hms : 0 ∉ ms) :
    info (pre ++ [0x11] ++ nm ++ [0] ++ mp ++ [0] ++ skip ++ [0] ++ ms ++
        [0, x1, x2, cnt, lim] ++ rest) =
      some ⟨decode nm, decode mp, decode ms, cnt, lim⟩ := by
  have hr : pre ++ [0x11] ++ nm ++ [0] ++ mp ++ [0] ++ skip ++ [0] ++ ms ++
      [0, x1, x2, cnt, lim] ++ rest =
      pre ++ 0x11 :: (nm ++ 0 :: (mp ++ 0 :: (skip ++ 0 ::
        (ms ++ 0 :: x1 :: x2 :: cnt :: lim :: rest)))) := by
    simp
  rw [hr]
  set r := pre ++ 0x11 :: (nm ++ 0 :: (mp ++ 0 :: (skip ++ 0 ::
    (ms ++ 0 :: x1 :: x2 :: cnt :: lim :: rest)))) with hrdef
  have hrne : r ≠ [] := by
    rw [hrdef]
    intro h
    have := congrArg List.length h
    simp at this
  -- marker
  have hf1 : pyFind r 0x11 0 = ((pre.length : Nat) : Int) := by
    have hfi : (r.drop 0).findIdx? (fun b => b == 0x11) = some pre.length := by
      rw [List.drop_zero, hrdef]
      exact findIdx?_found_append pre _ 0x11 hpre
    simpa using pyFind_nat_some r 0x11 0 pre.length hfi
  -- name terminator
  have hsplit1 : r = (pre ++ [0x11]) ++ (nm ++ 0 ::
      (mp ++ 0 :: (skip ++ 0 :: (ms ++ 0 :: x1 :: x2 :: cnt :: lim :: rest)))) := by
    rw [hrdef]; simp
  have hd1 : r.drop (pre.length + 1) = nm ++ 0 ::
      (mp ++ 0 :: (skip ++ 0 :: (ms ++ 0 :: x1 :: x2 :: cnt :: lim :: rest))) := by
    rw [hsplit1]
    exact List.drop_left' (by simp)
  have hf2 : pyFind r 0 ((pre.length + 1 : Nat) : Int) =
      ((pre.length + 1 : Nat) : Int) + ((nm.length : Nat) : Int) := by
    refine pyFind_nat_some r 0 (pre.length + 1) nm.length ?_
    rw [hd1]
    exact findIdx?_found_append nm _ 0 hnm
  -- name bytes
  have hname : pySlice r ((pre.length + 1 : Nat) : Int)
      ((pre.length + 1 + nm.length : Nat) : Int) = nm := by
    rw [pySlice_natCast]
    have : r = (pre ++ [0x11]) ++ (nm ++ (0 ::
        (mp ++ 0 :: (skip ++ 0 :: (ms ++ 0 :: x1 :: x2 :: cnt :: lim :: rest))))) := by
      rw [hsplit1]
    rw [this]
    have hlen : pre.length + 1 = (pre ++ [0x11]).length := by simp
    rw [hlen]
    exact slice_mid (pre ++ [0x11]) nm _
  -- map terminator
  have hsplit2 : r = (pre ++ [0x11] ++ nm ++ [0]) ++ (mp ++ 0 ::
      (skip ++ 0 :: (ms ++ 0 :: x1 :: x2 :: cnt :: lim :: rest))) := by
    rw [hrdef]; simp
  have hd2 : r.drop (pre.length + 1 + nm.length + 1) = mp ++ 0 ::
      (skip ++ 0 :: (ms ++ 0 :: x1 :: x2 :: cnt :: lim :: rest)) := by
    rw [hsplit2]
    refine List.drop_left' (by simp; omega)
  have hf3 : pyFind r 0 ((pre.length + 1 + nm.length + 1 : Nat) : Int) =
      ((pre.length + 1 + nm.length + 1 : Nat) : Int) + ((mp.length : Nat) : Int) := by
    refine pyFind_nat_some r 0 _ mp.length ?_
    rw [hd2]
    exact findIdx?_found_append mp _ 0 hmp
  -- map bytes
  have hmap : pySlice r ((pre.length + 1 + nm.length + 1 : Nat) : Int)
      ((pre.length + 1 + nm.length + 1 + mp.length : Nat) : Int) = mp := by
    rw [pySlice_natCast]
    have hx : r = (pre ++ [0x11] ++ nm ++ [0]) ++ (mp ++ (0 ::
        (skip ++ 0 :: (ms ++ 0 :: x1 :: x2 :: cnt :: lim :: rest)))) := by
      rw [hsplit2]
    rw [hx]
    have hlen : pre.length + 1 + nm.length + 1 = (pre ++ [0x11] ++ nm ++ [0]).length := by
      simp; omega
    rw [hlen]
    exact slice_mid (pre ++ [0x11] ++ nm ++ [0]) mp _
  -- skipped-field terminator
  have hsplit3 : r = (pre ++ [0x11] ++ nm ++ [0] ++ mp ++ [0]) ++ (skip ++ 0 ::
      (ms ++ 0 :: x1 :: x2 :: cnt :: lim :: rest)) := by
    rw [hrdef]; simp
  have hd3 : r.drop (pre.length + 1 + nm.length + 1 + mp.length + 1) = skip ++ 0 ::
      (ms ++ 0 :: x1 :: x2 :: cnt :: lim :: rest) := by
    rw [hsplit3]
    refine List.drop_left' (by simp; omega)
  have hf4 : pyFind r 0 ((pre.length + 1 + nm.length + 1 + mp.length + 1 : Nat) : Int) =
      ((pre.length + 1 + nm.length + 1 + mp.length + 1 : Nat) : Int) +
        ((skip.length : Nat) : Int) := by
    refine pyFind_nat_some r 0 _ skip.length ?_
    rw [hd3]
    exact findIdx?_found_append skip _ 0 hskip
  -- mission terminator
  have hsplit4 : r = (pre ++ [0x11] ++ nm ++ [0] ++ mp ++ [0] ++ skip ++ [0]) ++
      (ms ++ 0 :: x1 :: x2 :: cnt :: lim :: rest) := by
    rw [hrdef]; simp
  have hd4 : r.drop (pre.length + 1 + nm.length + 1 + mp.length + 1 + skip.length + 1) =
      ms ++ 0 :: x1 :: x2 :: cnt :: lim :: rest := by
    rw [hsplit4]
    refine List.drop_left' (by simp; omega)
  have hf5 : pyFind r 0
      ((pre.length + 1 + nm.length + 1 + mp.length + 1 + skip.length + 1 : Nat) : Int) =
      ((pre.length + 1 + nm.length + 1 + mp.length + 1 + skip.length + 1 : Nat) : Int) +
        ((ms.length : Nat) : Int) := by
    refine pyFind_nat_some r 0 _ ms.length ?_
    rw [hd4]
    exact findIdx?_found_append ms _ 0 hms
  -- mission bytes
  have hmission : pySlice r
      ((pre.length + 1 + nm.length + 1 + mp.length + 1 + skip.length + 1 : Nat) : Int)
      ((pre.length + 1 + nm.length + 1 + mp.length + 1 + skip.length + 1 + ms.length : Nat) : Int) =
      ms := by
    rw [pySlice_natCast]
    have hx : r = (pre ++ [0x11] ++ nm ++ [0] ++ mp ++ [0] ++ skip ++ [0]) ++
        (ms ++ (0 :: x1 :: x2 :: cnt :: lim :: rest)) := by
      rw [hsplit4]
    rw [hx]
    have hlen : pre.length + 1 + nm.length + 1 + mp.length + 1 + skip.length + 1 =
        (pre ++ [0x11] ++ nm ++ [0] ++ mp ++ [0] ++ skip ++ [0]).length := by simp; omega
    rw [hlen]
    exact slice_mid (pre ++ [0x11] ++ nm ++ [0] ++ mp ++ [0] ++ skip ++ [0]) ms _
  -- terminator search starting at the mission terminator finds it in place
  have hsplit5 : r = (pre ++ [0x11] ++ nm ++ [0] ++ mp ++ [0] ++ skip ++ [0] ++ ms) ++
      (0 :: x1 :: x2 :: cnt :: lim :: rest) := by
    rw [hrdef]; simp
  have hd5 : r.drop (pre.length + 1 + nm.length + 1 + mp.length + 1 + skip.length + 1 +
      ms.length) = 0 :: x1 :: x2 :: cnt :: lim :: rest := by
    rw [hsplit5]
    refine List.drop_left' (by simp; omega)
  have hf6 : pyFind r 0
      ((pre.length + 1 + nm.length + 1 + mp.length + 1 + skip.length + 1 + ms.length : Nat) : Int) =
      ((pre.length + 1 + nm.length + 1 + mp.length + 1 + skip.length + 1 + ms.length : Nat) : Int) := by
    have h0 := pyFind_nat_some r 0
      (pre.length + 1 + nm.length + 1 + mp.length + 1 + skip.length + 1 + ms.length) 0
      (by rw [hd5]; simp [List.findIdx?_cons])
    simpa using h0
  -- count byte
  have hcnt : pySlice r
      ((pre.length + 1 + nm.length + 1 + mp.length + 1 + skip.length + 1 + ms.length + 3 : Nat) : Int)
      ((pre.length + 1 + nm.length + 1 + mp.length + 1 + skip.length + 1 + ms.length + 4 : Nat) : Int) =
      [cnt] := by
    rw [pySlice_natCast]
    have hx : r = (pre ++ [0x11] ++ nm ++ [0] ++ mp ++ [0] ++ skip ++ [0] ++ ms ++
        [0, x1, x2]) ++ ([cnt] ++ (lim :: rest)) := by
      rw [hrdef]; simp
    rw [hx]
    have hlen : pre.length + 1 + nm.length + 1 + mp.length + 1 + skip.length + 1 +
        ms.length + 3 =
        (pre ++ [0x11] ++ nm ++ [0] ++ mp ++ [0] ++ skip ++ [0] ++ ms ++ [0, x1, x2]).length := by
      simp; omega
    have hlen2 : pre.length + 1 + nm.length + 1 + mp.length + 1 + skip.length + 1 +
        ms.length + 4 =
        (pre ++ [0x11] ++ nm ++ [0] ++ mp ++ [0] ++ skip ++ [0] ++ ms ++ [0, x1, x2]).length +
          ([cnt] : List Nat).length := by
      simp; omega
    rw [hlen, hlen2]
    exact slice_mid _ [cnt] _
  -- limit byte
  have hlim : pySlice r
      ((pre.length + 1 + nm.length + 1 + mp.length + 1 + skip.length + 1 + ms.length + 4 : Nat) : Int)
      ((pre.length + 1 + nm.length + 1 + mp.length + 1 + skip.length + 1 + ms.length + 5 : Nat) : Int) =
      [lim] := by
    rw [pySlice_natCast]
    have hx : r = (pre ++ [0x11] ++ nm ++ [0] ++ mp ++ [0] ++ skip ++ [0] ++ ms ++
        [0, x1, x2, cnt]) ++ ([lim] ++ rest) := by
      rw [hrdef]; simp
    rw [hx]
    have hlen : pre.length + 1 + nm.length + 1 + mp.length + 1 + skip.length + 1 +
        ms.length + 4 =
        (pre ++ [0x11] ++ nm ++ [0] ++ mp ++ [0] ++ skip ++ [0] ++ ms ++
          [0, x1, x2, cnt]).length := by
      simp; omega
    have hlen2 : pre.length + 1 + nm.length + 1 + mp.length + 1 + skip.length + 1 +
        ms.length + 5 =
        (pre ++ [0x11] ++ nm ++ [0] ++ mp ++ [0] ++ skip ++ [0] ++ ms ++
          [0, x1, x2, cnt]).length + ([lim] : List Nat).length := by
      simp; omega
    rw [hlen, hlen2]
    exact slice_mid _ [lim] _
  -- assemble
  rw [info, if_neg (by exact hrne)]
  simp only [infoData]
  rw [hf1]
  rw [show (1 : Int) + ((pre.length : Nat) : Int) = ((pre.length + 1 : Nat) : Int) by push_cast; ring]
  rw [hf2]
  rw [show ((pre.length + 1 : Nat) : Int) + ((nm.length : Nat) : Int) =
    ((pre.length + 1 + nm.length : Nat) : Int) by push_cast; ring]
  rw [show (1 : Int) + ((pre.length + 1 + nm.length : Nat) : Int) =
    ((pre.length + 1 + nm.length + 1 : Nat) : Int) by push_cast; ring]
  rw [hf3]
  rw [show ((pre.length + 1 + nm.length + 1 : Nat) : Int) + ((mp.length : Nat) : Int) =
    ((pre.length + 1 + nm.length + 1 + mp.length : Nat) : Int) by push_cast; ring]
  rw [show ((pre.length + 1 + nm.length + 1 + mp.length : Nat) : Int) + 1 =
    ((pre.length + 1 + nm.length + 1 + mp.length + 1 : Nat) : Int) by push_cast; ring]
  rw [hf4]
  rw [show (1 : Int) + (((pre.length + 1 + nm.length + 1 + mp.length + 1 : Nat) : Int) +
      ((skip.length : Nat) : Int)) =
    ((pre.length + 1 + nm.length + 1 + mp.length + 1 + skip.length + 1 : Nat) : Int) by
      push_cast; ring]
  rw [hf5]
  rw [show ((pre.length + 1 + nm.length + 1 + mp.length + 1 + skip.length + 1 : Nat) : Int) +
      ((ms.length : Nat) : Int) =
    ((pre.length + 1 + nm.length + 1 + mp.length + 1 + skip.length + 1 + ms.length : Nat) : Int) by
      push_cast; ring]
  rw [hf6]
  rw [show (3 : Int) +
      ((pre.length + 1 + nm.length + 1 + mp.length + 1 + skip.length + 1 + ms.length : Nat) : Int) =
    ((pre.length + 1 + nm.length + 1 + mp.length + 1 + skip.length + 1 + ms.length + 3 : Nat) : Int) by
      push_cast; ring]
  rw [show ((pre.length + 1 + nm.length + 1 + mp.length + 1 + skip.length + 1 + ms.length + 3 : Nat) : Int) + 1 =
    ((pre.length + 1 + nm.length + 1 + mp.length + 1 + skip.length + 1 + ms.length + 4 : Nat) : Int) by
      push_cast; ring]
  rw [show ((pre.length + 1 + nm.length + 1 + mp.length + 1 + skip.length + 1 + ms.length + 3 : Nat) : Int) + 2 =
    ((pre.length + 1 + nm.length + 1 + mp.length + 1 + skip.length + 1 + ms.length + 5 : Nat) : Int) by
      push_cast; ring]
  rw [hname, hmap, hmission, hcnt, hlim]
  simp [intFromBytesBE]

theorem c5_info_layout_amended_witness :
    info specInfoExampleFixed =
      some ⟨decode (pyStrCodes "MyServer"), decode (pyStrCodes "de_dust"),
        decode (pyStrCodes "briefing"), 5, 16⟩ := by
  have h := c5_info_layout_amended [255, 255, 255, 255, 0x49] (pyStrCodes "MyServer")
    (pyStrCodes "de_dust") [] (pyStrCodes "briefing") [] 0 0 5 16
    (by decide) (by decide) (by decide) (by decide) (by decide)
  have heq : specInfoExampleFixed =
      [255, 255, 255, 255, 0x49] ++ [0x11] ++ pyStrCodes "MyServer" ++ [0] ++
        pyStrCodes "de_dust" ++ [0] ++ [] ++ [0] ++ pyStrCodes "briefing" ++
        [0, 0, 0, 5, 16] ++ [] := by decide
  rw [heq]
  exact h

/-- Claim C5 (counterexample): the spec's example bytes, taken verbatim
with the count bytes 05 10 directly after the mission terminator, decode
with the source's offsets to player count 0 and limit 0 — not 5 and 16 —
because the source reads the counts three and four bytes past the
terminator. -/
theorem c5_info_example_counterexample :
    info specInfoExample =
        some ⟨some (pyStrCodes "MyServer"), some (pyStrCodes "de_dust"),
          some (pyStrCodes "briefing"), 0, 0⟩ ∧
      (infoData specInfoExample).player_count ≠ 5 ∧
      (infoData specInfoExample).player_limit ≠ 16 := by
  refine ⟨by decide, by decide, by decide⟩
